import Mathlib

/-!
Verification of the Orchestra control plane (manager / worker container-task
orchestrator) against its natural-language specification.

The Go source is shallowly embedded: Go maps become association lists
(first-binding-wins lookup, in-place assignment), Go pointers to tasks become
Option-wrapped values (a nil pointer is none), machine integers become Nat,
wall-clock timestamps become a Nat clock passed explicitly (0 is Go's zero
time), the Docker runtime and the HTTP transport become explicit outcome
parameters, and a Go panic is an explicit result constructor.  Floating-point
scores of the round-robin scheduler take only the values 0.0 and 1.0 in the
source, so they are embedded as the naturals 0 and 1.
-/

namespace Orchestra

/-! ## Go map primitives

A Go map is embedded as an association list whose keys are unique for every
map reachable from the empty literal.  mapAssign is the statement
m[k] = v, mapLookup is the read m[k] (first binding wins). -/

def mapAssign {K V : Type} [DecidableEq K] : List (K × V) → K → V → List (K × V)
  | [], k, v => [(k, v)]
  | (k0, v0) :: rest, k, v =>
      if k0 = k then (k, v) :: rest else (k0, v0) :: mapAssign rest k v

def mapLookup {K V : Type} [DecidableEq K] : List (K × V) → K → Option V
  | [], _ => none
  | (k0, v0) :: rest, k => if k0 = k then some v0 else mapLookup rest k

/-- Keys of an embedded Go map are pairwise distinct; every map built from
the empty literal by assignments satisfies this. -/
def keysNodup {K V : Type} (db : List (K × V)) : Prop :=
  (db.map Prod.fst).Nodup

/-! ## Task state machine (task/state.go)

Go declares State as uint with iota constants; values outside the five
declared constants are representable, so State is embedded as Nat. -/

def Pending : Nat := 0

def Scheduled : Nat := 1

def Running : Nat := 2

def Completed : Nat := 3

def Failed : Nat := 4

/-- Embedding of the package-level var stateTransitionMap, a Go map from
State to the slice of permitted successor states; lookup of an undeclared
key misses (none). -/
def stateTransitionMap (s : Nat) : Option (List Nat) :=
  if s = Pending then some [Scheduled]
  else if s = Scheduled then some [Scheduled, Running, Failed]
  else if s = Running then some [Running, Completed, Failed]
  else if s = Completed then some []
  else if s = Failed then some []
  else none

/-- Embedding of (s State) CanTransitionTo(next State) bool: map lookup,
refusing on a miss, then slices.Contains on the permitted successors. -/
def CanTransitionTo (s next : Nat) : Bool :=
  match stateTransitionMap s with
  | none => false
  | some transitions => transitions.contains next

/-- Transition table as written in the specification (section 3): the seven
permitted (from, to) pairs.  Stated from the spec for comparison with the
source-derived CanTransitionTo. -/
def specTransitionTable : List (Nat × Nat) :=
  [(Pending, Scheduled),
   (Scheduled, Scheduled), (Scheduled, Running), (Scheduled, Failed),
   (Running, Running), (Running, Completed), (Running, Failed)]

/-! ## Generic in-memory store (store/memory.go)

InMemoryTaskStore[K comparable, V any] holds Db map[K]V.  Errors are
embedded with Except String.  NewStore returns this implementation for
every store.Type, so it is the store both manager and worker run on. -/

def InMemoryTaskStore.Put {K V : Type} [DecidableEq K]
    (db : List (K × V)) (key : K) (value : V) : Except String (List (K × V)) :=
  .ok (mapAssign db key value)

def InMemoryTaskStore.Get {K V : Type} [DecidableEq K]
    (db : List (K × V)) (key : K) : Except String V :=
  match mapLookup db key with
  | none => .error "key does not exist"
  | some v => .ok v

def InMemoryTaskStore.ListAll {K V : Type} (db : List (K × V)) :
    Except String (List V) :=
  .ok (db.map Prod.snd)

def InMemoryTaskStore.Count {K V : Type} (db : List (K × V)) :
    Except String Nat :=
  .ok db.length

/-! ### Map lemmas -/

theorem mapLookup_mapAssign_self {K V : Type} [DecidableEq K]
    (db : List (K × V)) (k : K) (v : V) :
    mapLookup (mapAssign db k v) k = some v := by
  induction db with
  | nil => simp [mapAssign, mapLookup]
  | cons hd tl ih =>
      obtain ⟨k0, v0⟩ := hd
      by_cases h : k0 = k
      · simp [mapAssign, h, mapLookup]
      · simp [mapAssign, h, mapLookup, ih]

theorem mapLookup_mapAssign_other {K V : Type} [DecidableEq K]
    (db : List (K × V)) (k k' : K) (v : V) (hne : k' ≠ k) :
    mapLookup (mapAssign db k v) k' = mapLookup db k' := by
  induction db with
  | nil =>
      simp only [mapAssign, mapLookup]
      rw [if_neg (Ne.symm hne)]
  | cons hd tl ih =>
      obtain ⟨k0, v0⟩ := hd
      simp only [mapAssign]
      by_cases h : k0 = k
      · rw [if_pos h]
        simp only [mapLookup]
        rw [if_neg (Ne.symm hne), if_neg (h ▸ Ne.symm hne)]
      · rw [if_neg h]
        simp only [mapLookup]
        by_cases h2 : k0 = k'
        · rw [if_pos h2, if_pos h2]
        · rw [if_neg h2, if_neg h2, ih]

theorem mapAssign_keys {K V : Type} [DecidableEq K]
    (db : List (K × V)) (k : K) (v : V) :
    (mapAssign db k v).map Prod.fst =
      if k ∈ db.map Prod.fst then db.map Prod.fst
      else db.map Prod.fst ++ [k] := by
  induction db with
  | nil => simp [mapAssign]
  | cons hd tl ih =>
      obtain ⟨k0, v0⟩ := hd
      by_cases h : k0 = k
      · subst h
        simp [mapAssign]
      · simp only [mapAssign, if_neg h, List.map_cons, ih, List.mem_cons]
        by_cases h2 : k ∈ tl.map Prod.fst
        · simp [h2, Ne.symm h]
        · simp [h2, Ne.symm h]

theorem keysNodup_mapAssign {K V : Type} [DecidableEq K]
    (db : List (K × V)) (k : K) (v : V) (h : keysNodup db) :
    keysNodup (mapAssign db k v) := by
  unfold keysNodup at h ⊢
  rw [mapAssign_keys]
  by_cases h2 : k ∈ db.map Prod.fst
  · simpa [h2]
  · simp [h2, List.nodup_append, h]

/-! ## Claims C4, C9: the transition function -/

/-- Claim C4: CanTransitionTo(from, to) returns true exactly for the pairs of
the transition table (Pending to Scheduled; Scheduled to Scheduled, Running,
Failed; Running to Running, Completed, Failed) and false for every other
pair, in particular for every pair whose source is Completed or Failed. -/
theorem canTransitionTo_iff_table (s d : Nat) :
    CanTransitionTo s d = true ↔ (s, d) ∈ specTransitionTable := by
  unfold CanTransitionTo stateTransitionMap specTransitionTable
  unfold Pending Scheduled Running Completed Failed
  split_ifs with h0 h1 h2 h3 h4 <;> simp_all [Prod.ext_iff]

/-- Claim C9: for every from-state outside the five defined states the
transition-map lookup misses and CanTransitionTo returns false for every
destination, so an undefined state can never transition anywhere. -/
theorem canTransitionTo_undefined_state (s d : Nat) (h : 5 ≤ s) :
    CanTransitionTo s d = false := by
  unfold CanTransitionTo stateTransitionMap
  unfold Pending Scheduled Running Completed Failed
  split_ifs <;> first | omega | rfl

/-- Witness for C9: the undecoded state 7 cannot transition to Running. -/
theorem canTransitionTo_undefined_state_witness :
    5 ≤ 7 ∧ CanTransitionTo 7 Running = false :=
  ⟨by decide, canTransitionTo_undefined_state 7 Running (by decide)⟩

/-! ## Claim C10: the in-memory store -/

/-- Claim C10: for the in-memory store with any key and value types, Put
always succeeds; after Put(k, v), Get(k) returns v and Get of any other key
is unchanged; key-uniqueness of the underlying map is preserved; Count
equals the number of distinct keys present; and List returns exactly the
values of the stored pairs. -/
theorem inMemoryTaskStore_algebra {K V : Type} [DecidableEq K]
    (db : List (K × V)) (k k' : K) (v : V)
    (hnd : keysNodup db) (hne : k' ≠ k) :
    InMemoryTaskStore.Put db k v = .ok (mapAssign db k v)
    ∧ InMemoryTaskStore.Get (mapAssign db k v) k = .ok v
    ∧ InMemoryTaskStore.Get (mapAssign db k v) k' = InMemoryTaskStore.Get db k'
    ∧ keysNodup (mapAssign db k v)
    ∧ InMemoryTaskStore.Count db = .ok ((db.map Prod.fst).dedup.length)
    ∧ InMemoryTaskStore.ListAll db = .ok (db.map Prod.snd) := by
  refine ⟨rfl, ?_, ?_, keysNodup_mapAssign db k v hnd, ?_, rfl⟩
  · unfold InMemoryTaskStore.Get
    rw [mapLookup_mapAssign_self]
  · unfold InMemoryTaskStore.Get
    rw [mapLookup_mapAssign_other db k k' v hne]
  · unfold InMemoryTaskStore.Count
    unfold keysNodup at hnd
    rw [List.dedup_eq_self.mpr hnd, List.length_map]

/-- Witness for C10: the store algebra evaluated on the concrete one-entry
store mapping 1 to 10, with Put of key 2 and frame key 1. -/
theorem inMemoryTaskStore_algebra_witness :
    InMemoryTaskStore.Put [(1, 10)] 2 20 = .ok (mapAssign [(1, 10)] 2 20)
    ∧ InMemoryTaskStore.Get (mapAssign [(1, 10)] 2 20) 2 = .ok 20
    ∧ InMemoryTaskStore.Get (mapAssign [(1, 10)] 2 20) 1 =
        InMemoryTaskStore.Get [(1, 10)] 1
    ∧ keysNodup (mapAssign [(1, 10)] 2 20)
    ∧ InMemoryTaskStore.Count [(1, 10)] =
        .ok (([(1, 10)].map (Prod.fst (α := Nat) (β := Nat))).dedup.length)
    ∧ InMemoryTaskStore.ListAll [(1, 10)] = .ok ([(1, 10)].map Prod.snd) :=
  inMemoryTaskStore_algebra [(1, 10)] 2 1 20
    (by unfold keysNodup; decide) (by decide)

/-! ## Task and event (task/task.go, task/event.go)

A uuid.UUID is embedded as a Nat; the string form used as a manager store
key is embedded by the same Nat since uuid.String() is injective.
Timestamps are a Nat clock, 0 being Go's zero time.  The float64 CPU
request and the port structures are opaque container-engine payload never
read by the control flow under study and are omitted from the record. -/

structure Task where
  ID : Nat
  State : Nat
  ContainerID : String
  Name : String
  Image : String
  Memory : Int
  Disk : Int
  RestartPolicy : String
  StartTime : Nat
  EndTime : Nat
deriving Repr, DecidableEq

structure Event where
  ID : Nat
  State : Nat
  Timestamp : Nat
  Task : Task
deriving Repr, DecidableEq

/-- Embedding of task.DockerResult. -/
structure DockerResult where
  Error : Option String
  Action : String
  ContainerId : String
  Result : String
deriving Repr, DecidableEq

/-! ## Worker (worker/worker.go)

The store holds *task.Task pointers, so its value type is Option Task with
none for the nil pointer.  The Docker engine is opaque: each call that
consults it takes the outcome as an explicit argument. -/

structure Worker where
  Name : String
  Queue : List Task
  Db : List (Nat × Option Task)
  TaskCount : Nat
deriving Repr, DecidableEq

/-- Outcome of the NewDocker + d.Run() sequence inside StartTask.  A
creation error and a run error take the same path in the source (log, mark
the task Failed, update the store, return the error), so both are the
failure constructor. -/
inductive RunOutcome
  | failure (msg : String)
  | success (cid : String)
deriving Repr, DecidableEq

/-- Embedding of Worker.finishTask: set the task state to Completed, stamp
EndTime with the current clock, and Put it into the store. -/
def finishTask (w : Worker) (t : Task) (now : Nat) : Worker × Task :=
  let t2 := { t with State := Completed, EndTime := now }
  ({ w with Db := mapAssign w.Db t2.ID (some t2) }, t2)

/-- Embedding of Worker.StartTask: stamp StartTime, then either fail (mark
Failed, store) or succeed (record ContainerID, mark Running, store).
EndTime is not touched on any path. -/
def StartTask (w : Worker) (t : Task) (now : Nat) (outcome : RunOutcome) :
    Worker × Task × DockerResult :=
  let t1 := { t with StartTime := now }
  match outcome with
  | .failure msg =>
      let t2 := { t1 with State := Failed }
      ({ w with Db := mapAssign w.Db t2.ID (some t2) }, t2,
       { Error := some msg, Action := "", ContainerId := "", Result := "" })
  | .success cid =>
      let t2 := { t1 with ContainerID := cid, State := Running }
      ({ w with Db := mapAssign w.Db t2.ID (some t2) }, t2,
       { Error := none, Action := "start", ContainerId := cid,
         Result := "success" })

/-- Embedding of Worker.StopTask: on a Docker-client creation error, finish
the task and return the error; otherwise stop the container (a stop error
is only logged) and finish the task.  Every path runs finishTask. -/
def StopTask (w : Worker) (t : Task) (now : Nat)
    (dockerErr stopErr : Option String) : Worker × Task × DockerResult :=
  match dockerErr with
  | some msg =>
      let (w2, t2) := finishTask w t now
      (w2, t2, { Error := some msg, Action := "", ContainerId := "",
                 Result := "" })
  | none =>
      let result : DockerResult :=
        match stopErr with
        | some msg => { Error := some msg, Action := "", ContainerId := "",
                        Result := "" }
        | none => { Error := none, Action := "stop",
                    ContainerId := t.ContainerID, Result := "success" }
      let (w2, t2) := finishTask w t now
      (w2, t2, result)

/-- Embedding of Worker.RunTask: dequeue one task; Get the persisted task
by its identifier (the in-memory store errors on an absent key, which
RunTask returns at once); seed the store only when Get returned a nil
pointer without an error; check CanTransitionTo; dispatch on the dequeued
state. -/
def RunTask (w : Worker) (now : Nat) (outcome : RunOutcome)
    (dockerErr stopErr : Option String) : Worker × DockerResult :=
  match w.Queue with
  | [] =>
      (w, { Error := none, Action := "", ContainerId := "", Result := "" })
  | taskToRun :: rest =>
    let w1 := { w with Queue := rest }
    match InMemoryTaskStore.Get w1.Db taskToRun.ID with
    | .error msg =>
        (w1, { Error := some msg, Action := "", ContainerId := "",
               Result := "" })
    | .ok taskPersistedPtr =>
      let seeded :=
        match taskPersistedPtr with
        | none =>
            ({ w1 with Db := mapAssign w1.Db taskToRun.ID (some taskToRun) },
             taskToRun)
        | some tp => (w1, tp)
      let w2 := seeded.1
      let taskPersisted := seeded.2
      if CanTransitionTo taskPersisted.State taskToRun.State then
        if taskToRun.State = Scheduled then
          let r := StartTask w2 taskToRun now outcome
          (r.1, r.2.2)
        else if taskToRun.State = Completed then
          let r := StopTask w2 taskToRun now dockerErr stopErr
          (r.1, r.2.2)
        else
          (w2, { Error := some "invalid state transition", Action := "",
                 ContainerId := "", Result := "" })
      else
        (w2, { Error := some "invalid state transition", Action := "",
               ContainerId := "", Result := "" })

/-- Container inspection outcome for the worker updater loop:
either an Inspect error or the reported container status string. -/
inductive InspectOutcome
  | failure (msg : String)
  | status (s : String)
deriving Repr, DecidableEq

/-- One iteration of the loop body of Worker.updateTasks for the snapshot
task t: only tasks in state Running are considered; an Inspect error skips
the task; the reported status exited demotes the task to Failed and
re-persists it.  EndTime is not touched on any path. -/
def updateTaskFromInspect (db : List (Nat × Option Task)) (t : Task)
    (o : InspectOutcome) : List (Nat × Option Task) :=
  if t.State = Running then
    match o with
    | .failure _ => db
    | .status st =>
        if st = "exited" then mapAssign db t.ID (some { t with State := Failed })
        else db
  else db

/-- Embedding of Worker.updateTasks: fold the loop body over the List()
snapshot of the store.  A nil pointer is never stored, so the none case is
vacuous. -/
def updateTasks (w : Worker) (inspectOf : Task → InspectOutcome) : Worker :=
  { w with
    Db := (w.Db.map Prod.snd).foldl
      (fun db tp =>
        match tp with
        | none => db
        | some t => updateTaskFromInspect db t (inspectOf t)) w.Db }

/-! ## Worker HTTP handlers (worker/handlers.go)

The DELETE handler is driven by the parsed form of the taskID URL
parameter: absent, unparseable as a uuid, or a parsed uuid. -/

inductive TaskIdParam
  | missing
  | malformed
  | valid (id : Nat)
deriving Repr, DecidableEq

/-- Embedding of Api.StopTaskHandler.  The result lists the HTTP status
codes written, in order, and whether the handler panicked.  On an unknown
task the first Get errors and the 404 error response is sent, but the
source has no return there: execution continues with t holding the zero
value of *task.Task, a nil pointer, and the following access t.ID is a nil
dereference, embedded as panicked = true.  On the known-task path
taskToStop aliases the stored task, so the assignment of Completed to its
State mutates the store before the task is enqueued. -/
def StopTaskHandler (w : Worker) (p : TaskIdParam) :
    Worker × List Nat × Bool :=
  match p with
  | .missing => (w, [400], false)
  | .malformed => (w, [400], false)
  | .valid tID =>
    match InMemoryTaskStore.Get w.Db tID with
    | .error _ => (w, [404], true)
    | .ok tPtr =>
      match tPtr with
      | none => (w, [], true)
      | some t =>
        match InMemoryTaskStore.Get w.Db t.ID with
        | .error _ => (w, [404], false)
        | .ok stopPtr =>
          match stopPtr with
          | none => (w, [], true)
          | some taskToStop =>
            let t2 := { taskToStop with State := Completed }
            ({ w with Db := mapAssign w.Db t2.ID (some t2),
                      Queue := w.Queue ++ [t2] },
             [204], false)

/-! ## Claims C1, C6, C8: worker-side behaviour -/

/-- Concrete first-sighting task used by the worker claim theorems. -/
def freshTask : Task :=
  { ID := 1, State := Scheduled, ContainerID := "", Name := "t1",
    Image := "nginx:1", Memory := 0, Disk := 0, RestartPolicy := "",
    StartTime := 0, EndTime := 0 }

/-- Concrete worker holding one queued first-sighting task and an empty
store. -/
def freshWorker : Worker :=
  { Name := "w1", Queue := [freshTask], Db := [], TaskCount := 0 }

/-- Claim C1 (divergence witness): dequeuing a task whose identifier is
absent from the store makes the in-memory store Get return an error, and
RunTask returns that absent-key error at once: the store is not seeded
with the dequeued task and no dispatch happens, contrary to the claim. -/
theorem runTask_absent_key_errors :
    RunTask freshWorker 5 (.success "C1") none none =
      ({ Name := "w1", Queue := [], Db := [], TaskCount := 0 },
       { Error := some "key does not exist", Action := "",
         ContainerId := "", Result := "" }) := by
  decide

/-- Claim C8 (divergence witness): a DELETE carrying a well-formed UUID
absent from the store writes a 404 and leaves the store and queue
unchanged, but the handler then continues past the missing return and
dereferences the nil task pointer: it panics rather than performing no
further action. -/
theorem stopTaskHandler_unknown_task_panics :
    StopTaskHandler freshWorker (.valid 42) = (freshWorker, [404], true) := by
  decide

/-- Claim C6 (counterexample): the StartTask runtime-error path writes
State = Failed without stamping EndTime, so the task stored on the worker
is Failed with EndTime still zero, refuting that EndTime is non-zero
whenever the state is Completed or Failed. -/
theorem failed_task_without_endTime :
    mapLookup (StartTask freshWorker freshTask 5
        (.failure "no such image")).1.Db freshTask.ID
      = some (some { freshTask with StartTime := 5, State := Failed })
    ∧ ({ freshTask with StartTime := 5, State := Failed } : Task).State = Failed
    ∧ ({ freshTask with StartTime := 5, State := Failed } : Task).EndTime = 0 := by
  decide

/-- Claim C6 as amended: EndTime is stamped only by the Completed path:
finishTask (hence every StopTask path) sets State = Completed and
EndTime = now, and StartTime ≤ EndTime holds there whenever the finish
stamp is not earlier than the recorded StartTime; the two paths that write
State = Failed (the StartTask runtime error and the updater demotion on a
container exit) leave EndTime unchanged. -/
theorem endTime_stamped_only_on_completion
    (w : Worker) (t : Task) (now : Nat) (msg : String)
    (db : List (Nat × Option Task)) (hstart : t.StartTime ≤ now) :
    ((finishTask w t now).2.State = Completed
      ∧ (finishTask w t now).2.EndTime = now
      ∧ (finishTask w t now).2.StartTime ≤ (finishTask w t now).2.EndTime)
    ∧ ((StartTask w t now (.failure msg)).2.1.State = Failed
      ∧ (StartTask w t now (.failure msg)).2.1.EndTime = t.EndTime)
    ∧ (t.State = Running →
        updateTaskFromInspect db t (.status "exited") =
          mapAssign db t.ID (some { t with State := Failed })) := by
  refine ⟨⟨rfl, rfl, ?_⟩, ⟨rfl, rfl⟩, ?_⟩
  · simpa [finishTask] using hstart
  · intro h
    simp [updateTaskFromInspect, h]

/-- Witness for the amended C6 at the concrete fresh task and clock 5. -/
theorem endTime_stamped_only_on_completion_witness :
    freshTask.StartTime ≤ 5
    ∧ (((finishTask freshWorker freshTask 5).2.State = Completed
      ∧ (finishTask freshWorker freshTask 5).2.EndTime = 5
      ∧ (finishTask freshWorker freshTask 5).2.StartTime ≤
          (finishTask freshWorker freshTask 5).2.EndTime)
    ∧ ((StartTask freshWorker freshTask 5 (.failure "e")).2.1.State = Failed
      ∧ (StartTask freshWorker freshTask 5 (.failure "e")).2.1.EndTime =
          freshTask.EndTime)
    ∧ (freshTask.State = Running →
        updateTaskFromInspect [] freshTask (.status "exited") =
          mapAssign [] freshTask.ID (some { freshTask with State := Failed }))) :=
  ⟨by decide,
   endTime_stamped_only_on_completion freshWorker freshTask 5 "e" []
     (by decide)⟩

/-! ## Round-robin scheduler (scheduler/roundrobin.go)

Nodes are identified by their Name.  Scores in the source are float64 but
take only the values 0.0 and 1.0, embedded as the naturals 0 and 1.  Node
names are pairwise distinct in every manager (they are Go map keys), so
the Go score map is embedded as the association list in node order. -/

structure RoundRobin where
  Name : String
  LastWorker : Nat
deriving Repr, DecidableEq

def RoundRobin.SelectCandidates (_s : RoundRobin) (nodes : List String) :
    List String :=
  nodes

/-- Embedding of RoundRobin.Score: when the cursor is below the node-count
the target index is cursor + 1 and the cursor is incremented, otherwise
both become 0; the node whose enumeration index equals the target scores
1, every other node scores 0.  The target index can equal the node-count,
in which case no enumeration index matches it. -/
def RoundRobin.Score (s : RoundRobin) (nodes : List String) :
    RoundRobin × List (String × Nat) :=
  let newWorker : Nat := if s.LastWorker < nodes.length then s.LastWorker + 1 else 0
  ({ s with LastWorker := newWorker },
   nodes.enum.map (fun p => (p.2, if p.1 = newWorker then 1 else 0)))

/-- Loop body of RoundRobin.Pick: a strictly greater score replaces the
best node; a missing score map entry reads as the zero value 0. -/
def pickLoop (scores : List (String × Nat)) :
    String → Nat → List String → String
  | best, _, [] => best
  | best, bestScore, n :: rest =>
      if (mapLookup scores n).getD 0 > bestScore then
        pickLoop scores n ((mapLookup scores n).getD 0) rest
      else pickLoop scores best bestScore rest

/-- Embedding of RoundRobin.Pick: the first candidate initialises the best
node, so the result is the first candidate of maximal score; none iff the
candidate list is empty. -/
def RoundRobin.Pick (scores : List (String × Nat)) (candidates : List String) :
    Option String :=
  match candidates with
  | [] => none
  | c :: rest => some (pickLoop scores c ((mapLookup scores c).getD 0) rest)

/-- Iterated Score calls over a fixed node list, keeping only the evolving
scheduler state. -/
def scoreIter (nodes : List String) : Nat → RoundRobin → RoundRobin
  | 0, s => s
  | k + 1, s => (RoundRobin.Score (scoreIter nodes k s) nodes).1

/-! ## Claim C7: round-robin scoring -/

/-- Claim C7 (counterexample): on a fresh scheduler over the single node
w1, the first Score call computes target index 1, which is out of range,
so the only node scores 0 and no node receives the score 1, refuting that
every call assigns 1.0 to exactly one node. -/
theorem roundRobin_score_no_winner :
    (RoundRobin.Score { Name := "roundrobin", LastWorker := 0 } ["w1"]).2
        = [("w1", 0)]
    ∧ ¬ ∃ p ∈ (RoundRobin.Score
        { Name := "roundrobin", LastWorker := 0 } ["w1"]).2, p.2 = 1 := by
  decide

theorem score_cursor_step (s : RoundRobin) (nodes : List String) :
    (RoundRobin.Score s nodes).1.LastWorker =
      if s.LastWorker < nodes.length then s.LastWorker + 1 else 0 := rfl

theorem succ_mod_expand (k m : Nat) (hm : 0 < m) :
    (k + 1) % m = if k % m + 1 < m then k % m + 1 else 0 := by
  have hc : k % m < m := Nat.mod_lt _ hm
  have h1 : (k + 1) % m = (k % m + 1) % m := by
    conv_lhs => rw [← Nat.div_add_mod k m, Nat.add_assoc, Nat.mul_add_mod]
  rw [h1]
  by_cases h : k % m + 1 < m
  · rw [if_pos h, Nat.mod_eq_of_lt h]
  · have h2 : k % m + 1 = m := by omega
    rw [if_neg h, h2, Nat.mod_self]

theorem scoreIter_cursor (nm : String) (nodes : List String) (k : Nat) :
    (scoreIter nodes k { Name := nm, LastWorker := 0 }).LastWorker =
      k % (nodes.length + 1) := by
  induction k with
  | zero => simp [scoreIter]
  | succ k ih =>
      rw [scoreIter, score_cursor_step, ih,
        succ_mod_expand k (nodes.length + 1) (Nat.succ_pos _)]
      by_cases h : k % (nodes.length + 1) < nodes.length
      · rw [if_pos h, if_pos (by omega)]
      · rw [if_neg h, if_neg (by omega)]

/-- Claim C7 as amended: from a fresh scheduler over N ≥ 1 nodes the
cursor after k calls is k mod (N + 1); call number k + 1 targets index
(k + 1) mod (N + 1), assigning score 1 to the node at that index and 0 to
every other node; consequently some node scores 1 exactly when the target
is below N, so successive calls award the 1 at indices 1, 2, ..., N - 1,
then make one call on which every node scores 0 (target N, out of range),
then index 0, cyclically with period N + 1. -/
theorem roundRobin_score_cycle (nm : String) (nodes : List String) (k : Nat)
    (_hN : 1 ≤ nodes.length) :
    (scoreIter nodes k { Name := nm, LastWorker := 0 }).LastWorker =
        k % (nodes.length + 1)
    ∧ (RoundRobin.Score (scoreIter nodes k { Name := nm, LastWorker := 0 })
        nodes).2 =
        nodes.enum.map
          (fun p => (p.2, if p.1 = (k + 1) % (nodes.length + 1) then 1 else 0))
    ∧ ((∃ p ∈ (RoundRobin.Score
          (scoreIter nodes k { Name := nm, LastWorker := 0 }) nodes).2,
          p.2 = 1)
        ↔ (k + 1) % (nodes.length + 1) < nodes.length) := by
  have hcur := scoreIter_cursor nm nodes k
  have htgt :
      (if (scoreIter nodes k { Name := nm, LastWorker := 0 }).LastWorker
            < nodes.length
        then (scoreIter nodes k { Name := nm, LastWorker := 0 }).LastWorker + 1
        else 0) = (k + 1) % (nodes.length + 1) := by
    rw [hcur, succ_mod_expand k (nodes.length + 1) (Nat.succ_pos _)]
    by_cases h : k % (nodes.length + 1) < nodes.length
    · rw [if_pos h, if_pos (by omega)]
    · rw [if_neg h, if_neg (by omega)]
  have hscores :
      (RoundRobin.Score (scoreIter nodes k { Name := nm, LastWorker := 0 })
          nodes).2 =
        nodes.enum.map
          (fun p =>
            (p.2, if p.1 = (k + 1) % (nodes.length + 1) then 1 else 0)) := by
    unfold RoundRobin.Score
    rw [htgt]
  refine ⟨hcur, hscores, ?_⟩
  rw [hscores]
  constructor
  · rintro ⟨p, hp, hp1⟩
    rw [List.mem_map] at hp
    obtain ⟨q, hq, rfl⟩ := hp
    by_cases hqt : q.1 = (k + 1) % (nodes.length + 1)
    · have hmem : q.1 ∈ nodes.enum.map Prod.fst := List.mem_map_of_mem _ hq
      rw [List.enum_map_fst, List.mem_range] at hmem
      omega
    · simp only [if_neg hqt] at hp1
      exact absurd hp1 (by omega)
  · intro h
    have hmem : (k + 1) % (nodes.length + 1) ∈ nodes.enum.map Prod.fst := by
      rw [List.enum_map_fst, List.mem_range]
      exact h
    rw [List.mem_map] at hmem
    obtain ⟨q, hq, hq1⟩ := hmem
    refine ⟨(q.2, if q.1 = (k + 1) % (nodes.length + 1) then 1 else 0),
      List.mem_map_of_mem _ hq, ?_⟩
    rw [if_pos hq1]

/-- Witness for the amended C7 at the concrete three-node ring after two
calls: the third call targets index 3 mod 4 = 3, out of range, so every
node scores 0. -/
theorem roundRobin_score_cycle_witness :
    1 ≤ (["w1", "w2", "w3"] : List String).length
    ∧ ((scoreIter ["w1", "w2", "w3"] 2
          { Name := "rr", LastWorker := 0 }).LastWorker = 2 % 4
      ∧ (RoundRobin.Score (scoreIter ["w1", "w2", "w3"] 2
          { Name := "rr", LastWorker := 0 }) ["w1", "w2", "w3"]).2 =
          (["w1", "w2", "w3"] : List String).enum.map
            (fun p => (p.2, if p.1 = 3 % 4 then 1 else 0))
      ∧ ((∃ p ∈ (RoundRobin.Score (scoreIter ["w1", "w2", "w3"] 2
            { Name := "rr", LastWorker := 0 }) ["w1", "w2", "w3"]).2,
            p.2 = 1) ↔ 3 % 4 < 3)) :=
  ⟨by decide, roundRobin_score_cycle "rr" ["w1", "w2", "w3"] 2 (by decide)⟩

/-! ## Manager (manager/manager.go)

The pending queue holds untyped interface values: the HTTP handler and
AddTask enqueue task.Event values, while sendTaskToWorker re-enqueues the
JSON byte slice of an event on transport failure.  An item is therefore
either an event or the bytes of an event; the type assertion
Dequeue().(task.Event) succeeds only on the former and panics on bytes or
on the nil returned by an empty queue.  Outbound HTTP is opaque: the
outcome of each call is an explicit argument; a response body is assumed
decodable. -/

inductive QItem
  | ev (e : Event)
  | bytes (e : Event)
deriving Repr, DecidableEq

inductive Transport
  | failure (msg : String)
  | resp (code : Nat)
deriving Repr, DecidableEq

inductive SWResult
  | ok
  | err (msg : String)
  | panicked (msg : String)
deriving Repr, DecidableEq

structure Manager where
  LastWorkerIdx : Nat
  Pending : List QItem
  TaskStore : List (Nat × Option Task)
  EventStore : List (Nat × Option Event)
  Workers : List String
  WorkerTaskMap : List (String × List Nat)
  TaskWorkerMap : List (Nat × String)
  Scheduler : RoundRobin
  WorkerNodes : List String
deriving Repr, DecidableEq

/-- Embedding of Manager.SelectWorker: candidates are the worker nodes
unchanged; a nil candidate slice (no workers) is an error; otherwise Score
advances the cursor and Pick chooses the argmax, ties to the first
candidate.  The scores map of make() is never nil, so that error branch
cannot fire.  Pick may in principle return a nil node pointer, kept as the
Option. -/
def SelectWorker (m : Manager) (_t : Task) :
    Except String (Manager × Option String) :=
  let candidates := RoundRobin.SelectCandidates m.Scheduler m.WorkerNodes
  match candidates with
  | [] => .error "no candidates found to satisfy task requirements"
  | c :: rest =>
      let sr := RoundRobin.Score m.Scheduler (c :: rest)
      .ok ({ m with Scheduler := sr.1 }, RoundRobin.Pick sr.2 (c :: rest))

/-- Embedding of Manager.stopTask: DELETE to the bound worker; a transport
error or a status other than 204 is an error, otherwise success.  No
manager state is touched. -/
def stopTask (m : Manager) (del : Transport) : Manager × SWResult :=
  match del with
  | .failure msg => (m, .err ("failed to stop task: " ++ msg))
  | .resp code =>
      if code = 204 then (m, .ok)
      else (m, .err "failed to stop task: unexpected status")

/-- Embedding of Manager.sendTaskToWorker: POST the serialized event; on a
transport error the byte slice, not the event, is enqueued onto Pending
and the error returned; a 201 response is success; any other status is an
error. -/
def sendTaskToWorker (m : Manager) (data : Event) (tr : Transport) :
    Manager × SWResult :=
  match tr with
  | .failure msg =>
      ({ m with Pending := m.Pending ++ [QItem.bytes data] },
       .err ("failed to send task to worker: " ++ msg))
  | .resp code =>
      if code = 201 then (m, .ok)
      else (m, .err "failed to send task to worker: unexpected status")

/-- Embedding of Manager.SendWork.  The source dequeues once and persists
that event, then, on the new-placement path, dequeues a second time and
uses that second event for the placement maps, the task store and the
POST; each dequeue goes through the type assertion .(task.Event). -/
def SendWork (m : Manager) (tr del : Transport) : Manager × SWResult :=
  match m.Pending with
  | [] => (m, .err "no pending tasks")
  | q1 :: rest1 =>
    let m1 := { m with Pending := rest1 }
    match q1 with
    | .bytes _ => (m1, .panicked "interface conversion to task.Event")
    | .ev e =>
      let m2 := { m1 with EventStore := mapAssign m1.EventStore e.ID (some e) }
      let taskID := e.Task.ID
      match mapLookup m2.TaskWorkerMap taskID with
      | some _taskWorker =>
          match InMemoryTaskStore.Get m2.TaskStore taskID with
          | .error msg => (m2, .err ("failed to get persisted task: " ++ msg))
          | .ok ptPtr =>
            match ptPtr with
            | none => (m2, .panicked "nil pointer dereference")
            | some pt =>
              if e.State = Completed ∧ CanTransitionTo pt.State e.State then
                stopTask m2 del
              else
                (m2, .err "invalid request: existing task cannot transition to the completed state")
      | none =>
        match SelectWorker m2 e.Task with
        | .error msg => (m2, .err ("failed to select worker: " ++ msg))
        | .ok sel =>
          let m3 := sel.1
          match sel.2 with
          | none => (m3, .panicked "nil pointer dereference")
          | some workerName =>
            match m3.Pending with
            | [] => (m3, .panicked "interface conversion to task.Event")
            | q2 :: rest2 =>
              let m4 := { m3 with Pending := rest2 }
              match q2 with
              | .bytes _ => (m4, .panicked "interface conversion to task.Event")
              | .ev taskEvent =>
                let t := taskEvent.Task
                let m5 := { m4 with
                  TaskWorkerMap := mapAssign m4.TaskWorkerMap t.ID workerName,
                  WorkerTaskMap := mapAssign m4.WorkerTaskMap workerName
                    ((mapLookup m4.WorkerTaskMap workerName).getD [] ++ [t.ID]) }
                let t2 := { t with State := Scheduled }
                let m6 := { m5 with
                  TaskStore := mapAssign m5.TaskStore t2.ID (some t2) }
                sendTaskToWorker m6 taskEvent tr

/-- Embedding of Manager.updateTask, the write step of the reconciliation
loop: the stored record takes the polled task's State, StartTime, EndTime
and ContainerID unconditionally and is re-persisted; CanTransitionTo is
not consulted on this path. -/
def updateTask (m : Manager) (old new0 : Task) : Except String Manager :=
  let old2 := { old with
    State := new0.State, StartTime := new0.StartTime,
    EndTime := new0.EndTime, ContainerID := new0.ContainerID }
  .ok { m with TaskStore := mapAssign m.TaskStore old.ID (some old2) }

/-! ## Claims C2, C3, C5: manager-side behaviour -/

/-- Concrete submitted task for the manager claim theorems. -/
def submittedTask (id : Nat) : Task :=
  { ID := id, State := Pending, ContainerID := "", Name := "t",
    Image := "nginx:1", Memory := 0, Disk := 0, RestartPolicy := "",
    StartTime := 0, EndTime := 0 }

def ev1 : Event :=
  { ID := 100, State := Scheduled, Timestamp := 0, Task := submittedTask 1 }

def ev2 : Event :=
  { ID := 200, State := Scheduled, Timestamp := 0, Task := submittedTask 2 }

/-- Concrete manager over the single worker w1 with two pending events. -/
def manager0 : Manager :=
  { LastWorkerIdx := 0, Pending := [.ev ev1, .ev ev2], TaskStore := [],
    EventStore := [], Workers := ["w1"], WorkerTaskMap := [("w1", [])],
    TaskWorkerMap := [], Scheduler := { Name := "", LastWorker := 0 },
    WorkerNodes := ["w1"] }

/-- Claim C2 (divergence witness): one SendWork call on a queue of two
fresh events removes both: the first event is the one persisted to the
EventStore, while the second is the one recorded in the placement maps and
POSTed; the first event's task receives no placement at all.  With a
single pending event the second dequeue returns nil and the type
assertion panics. -/
theorem sendWork_double_dequeue :
    (SendWork manager0 (.resp 201) (.resp 204)).1.Pending = []
    ∧ (SendWork manager0 (.resp 201) (.resp 204)).1.EventStore
        = [(100, some ev1)]
    ∧ (SendWork manager0 (.resp 201) (.resp 204)).1.TaskWorkerMap
        = [(2, "w1")]
    ∧ mapLookup (SendWork manager0 (.resp 201) (.resp 204)).1.TaskWorkerMap
        ev1.Task.ID = none
    ∧ (SendWork manager0 (.resp 201) (.resp 204)).2 = .ok
    ∧ (SendWork { manager0 with Pending := [.ev ev1] }
        (.resp 201) (.resp 204)).2
        = .panicked "interface conversion to task.Event" := by
  decide

/-- Claim C3 (divergence witness): when the POST to the worker fails at
the transport level, what reappears in Pending is the serialized byte
slice of the event, not the event; the next SendWork call dequeues it,
and the type assertion .(task.Event) panics instead of re-dispatching, so
the event is lost from the queue. -/
theorem sendWork_transport_failure_poisons_queue :
    (SendWork manager0 (.failure "connection refused") (.resp 204)).1.Pending
        = [QItem.bytes ev2]
    ∧ (SendWork manager0 (.failure "connection refused") (.resp 204)).2
        = .err "failed to send task to worker: connection refused"
    ∧ (SendWork (SendWork manager0 (.failure "connection refused")
          (.resp 204)).1 (.resp 201) (.resp 204)).2
        = .panicked "interface conversion to task.Event"
    ∧ (SendWork (SendWork manager0 (.failure "connection refused")
          (.resp 204)).1 (.resp 201) (.resp 204)).1.Pending = [] := by
  decide

/-- Concrete stored task in the terminal state Completed. -/
def completedTask : Task := { freshTask with State := Completed, EndTime := 9 }

/-- Concrete task as polled from a worker, reported Running. -/
def observedRunning : Task :=
  { freshTask with State := Running, ContainerID := "C1" }

def manager2 : Manager :=
  { manager0 with Pending := [], TaskStore := [(1, some completedTask)] }

/-- Claim C5 (divergence witness): the reconciliation write updateTask
does not consult CanTransitionTo: merging a worker-reported Running task
over a stored Completed task overwrites the terminal State (and clobbers
the stamped EndTime), so Completed is not absorbing on the manager. -/
theorem updateTask_overwrites_terminal_state :
    completedTask.State = Completed
    ∧ (updateTask manager2 completedTask observedRunning).toOption.bind
        (fun m2 => mapLookup m2.TaskStore completedTask.ID)
      = some (some { completedTask with
          State := Running, ContainerID := "C1",
          StartTime := 0, EndTime := 0 })
    ∧ Running ≠ Completed := by
  decide

end Orchestra
